import Mathlib

/-!
Shallow embedding of the nextalk fcitx5 addon
(src/addons/fcitx5/src/nextalk.cpp) and proofs about its hotkey
configuration, hotkey matching, focus-lock commit engine, and the
length-prefixed socket framing.

Key symbols (KeySym) and modifier states (KeyStates) are modelled as
natural numbers carrying the X11 keysym values and fcitx KeyState bit
values.  Input contexts are modelled by their uuid together with the
hasFocus flag the host reports for them.  Text payloads are byte lists.
-/

namespace Nextalk

/-! ## Key symbol and modifier constants (X11 keysym / fcitx KeyState values) -/

def keyAltL : Nat := 0xffe9
def keyAltR : Nat := 0xffea
def keyControlL : Nat := 0xffe3
def keyControlR : Nat := 0xffe4
def keyShiftL : Nat := 0xffe1
def keyShiftR : Nat := 0xffe2
def keySuperL : Nat := 0xffeb
def keySuperR : Nat := 0xffec
def keyMetaL : Nat := 0xffe7
def keyMetaR : Nat := 0xffe8
def keySpace : Nat := 0x20
def keyISOLevel3Shift : Nat := 0xfe03

def keyStateShift : Nat := 1
def keyStateCtrl : Nat := 4
def keyStateAlt : Nat := 8
def keyStateSuper : Nat := 64

/-! ## Key-name table (NextalkAddon::initKeyMap) -/

/-- The static key-name table built by initKeyMap: human-readable key
names mapped to key symbols.  Association list; lookup is exact,
case-sensitive string match as in the C++ unordered_map. -/
def keyNameMap : List (String × Nat) :=
  [ ("Alt_L", keyAltL), ("Alt_R", keyAltR),
    ("altLeft", keyAltL), ("altRight", keyAltR),
    ("Control_L", keyControlL), ("Control_R", keyControlR),
    ("ctrlLeft", keyControlL), ("ctrlRight", keyControlR),
    ("Shift_L", keyShiftL), ("Shift_R", keyShiftR),
    ("shiftLeft", keyShiftL), ("shiftRight", keyShiftR),
    ("Super_L", keySuperL), ("Super_R", keySuperR),
    ("Meta_L", keyMetaL), ("Meta_R", keyMetaR),
    ("F1", 0xffbe), ("F2", 0xffbf), ("F3", 0xffc0), ("F4", 0xffc1),
    ("F5", 0xffc2), ("F6", 0xffc3), ("F7", 0xffc4), ("F8", 0xffc5),
    ("F9", 0xffc6), ("F10", 0xffc7), ("F11", 0xffc8), ("F12", 0xffc9),
    ("space", keySpace), ("Space", keySpace),
    ("Escape", 0xff1b), ("Tab", 0xff09),
    ("Return", 0xff0d), ("Enter", 0xff0d),
    ("BackSpace", 0xff08), ("Caps_Lock", 0xffe5),
    ("Up", 0xff52), ("Down", 0xff54), ("Left", 0xff51), ("Right", 0xff53),
    ("Insert", 0xff63), ("Delete", 0xffff),
    ("Home", 0xff50), ("End", 0xff57),
    ("Page_Up", 0xff55), ("Page_Down", 0xff56),
    ("a", 0x61), ("b", 0x62), ("c", 0x63), ("d", 0x64), ("e", 0x65),
    ("f", 0x66), ("g", 0x67), ("h", 0x68), ("i", 0x69), ("j", 0x6a),
    ("k", 0x6b), ("l", 0x6c), ("m", 0x6d), ("n", 0x6e), ("o", 0x6f),
    ("p", 0x70), ("q", 0x71), ("r", 0x72), ("s", 0x73), ("t", 0x74),
    ("u", 0x75), ("v", 0x76), ("w", 0x77), ("x", 0x78), ("y", 0x79),
    ("z", 0x7a),
    ("0", 0x30), ("1", 0x31), ("2", 0x32), ("3", 0x33), ("4", 0x34),
    ("5", 0x35), ("6", 0x36), ("7", 0x37), ("8", 0x38), ("9", 0x39) ]

/-! ## Hotkey configuration and matcher -/

/-- The configured hotkey: main key symbol plus modifier bit set
(fields configuredKey_ and configuredModifiers_ of NextalkAddon). -/
structure HotkeyConfig where
  configuredKey : Nat
  configuredModifiers : Nat
  deriving DecidableEq, Repr

/-- Startup default: Alt_R with no modifiers. -/
def defaultConfig : HotkeyConfig := ⟨keyAltR, 0⟩

/-- NextalkAddon::isConfiguredHotkey.  Mirrors the control flow of the
C++ exactly: when the event symbol differs from the configured main key,
the only way to match is the Alt_R / ISO_Level3_Shift accommodation,
which returns true immediately; otherwise, when modifiers are
configured, the event state must contain all of them. -/
def isConfiguredHotkey (cfg : HotkeyConfig) (sym states : Nat) : Bool :=
  if sym ≠ cfg.configuredKey then
    if cfg.configuredKey = keyAltR ∧ sym = keyISOLevel3Shift then true
    else false
  else
    if cfg.configuredModifiers ≠ 0 then
      if (states &&& cfg.configuredModifiers) ≠ cfg.configuredModifiers then false
      else true
    else true

/-! ## Hotkey config parsing (NextalkAddon::parseHotkeyConfig) -/

/-- A character the C++ trim step removes: space or tab. -/
def isSpaceOrTab (c : Char) : Bool := c = ' ' || c = '\t'

/-- Trim leading and trailing spaces/tabs from one token, as the
erase/find_first_not_of/find_last_not_of sequence does. -/
def trimChars (l : List Char) : List Char :=
  ((l.dropWhile isSpaceOrTab).reverse.dropWhile isSpaceOrTab).reverse

/-- Split a character stream at every plus sign, as the repeated
getline-with-delimiter loop does: the segments between delimiters, in
order (empty segments included; they are filtered out below exactly as
the C++ skips empty parts). -/
def splitPlus : List Char → List (List Char)
  | [] => [[]]
  | c :: rest =>
    if c = '+' then [] :: splitPlus rest
    else
      match splitPlus rest with
      | [] => [[c]]
      | seg :: segs => (c :: seg) :: segs

/-- Split the config string on plus signs, trim each token, and keep
the non-empty ones, as the getline loop does. -/
def splitConfig (s : String) : List String :=
  ((splitPlus s.toList).map (fun l => String.mk (trimChars l))).filter (fun p => p ≠ "")

/-- The modifier bit a single modifier token denotes, or none for an
unknown token (the if/else chain of the modifier loop). -/
def modifierBits (m : String) : Option Nat :=
  if m = "Control" ∨ m = "Ctrl" then some keyStateCtrl
  else if m = "Shift" then some keyStateShift
  else if m = "Alt" then some keyStateAlt
  else if m = "Super" ∨ m = "Meta" then some keyStateSuper
  else none

/-- Fold the modifier tokens into a bit set, failing on the first
unknown token, as the C++ modifier loop does. -/
def parseModifiers : List String → Option Nat
  | [] => some 0
  | m :: rest =>
    match modifierBits m with
    | none => none
    | some b =>
      match parseModifiers rest with
      | none => none
      | some acc => some (b ||| acc)

/-- NextalkAddon::parseHotkeyConfig.  Returns (success flag, resulting
configuration).  The last token is the main key, looked up in the
key-name table; the earlier tokens are modifiers.  Any failure returns
false with the configuration unchanged; only a fully successful parse
installs the new key and modifier set. -/
def parseHotkeyConfig (cfg : HotkeyConfig) (config : String) : Bool × HotkeyConfig :=
  let parts := splitConfig config
  match parts.getLast? with
  | none => (false, cfg)
  | some mainKey =>
    match keyNameMap.lookup mainKey with
    | none => (false, cfg)
    | some newKey =>
      match parseModifiers parts.dropLast with
      | none => (false, cfg)
      | some newModifiers => (true, ⟨newKey, newModifiers⟩)

/-! ## Addon state and key events -/

/-- The mutable addon fields the claims are about: the hotkey
configuration, the pressed flag used for edge detection, and the focus
lock (lockedInputContextUUID_ and hasLockedContext_; the uuid is
modelled as a natural number since it is opaque). -/
structure AddonState where
  cfg : HotkeyConfig
  hotkeyPressed : Bool
  lockedInputContextUUID : Nat
  hasLockedContext : Bool
  deriving DecidableEq, Repr

/-- One key event as NextalkAddon::handleKeyEvent consumes it: the key
symbol, the modifier state, the release flag, and the uuid of
keyEvent.inputContext() when that pointer is non-null. -/
structure KeyEventData where
  sym : Nat
  states : Nat
  isRelease : Bool
  inputContext : Option Nat
  deriving DecidableEq, Repr

/-- NextalkAddon::handleKeyEvent.  Returns the new state and the list
of commands relayed to the companion app (sendCommandToFlutter calls).
A non-matching event does nothing; a release clears the pressed flag; a
press while already pressed (key repeat) does nothing; a fresh press
marks pressed, locks the event input context when one is reported
(clearing the lock flag otherwise), and relays the toggle command.
Note that mostRecentInputContext is only logged by the C++ on this
path, never stored. -/
def handleKeyEvent (st : AddonState) (ev : KeyEventData) : AddonState × List String :=
  if isConfiguredHotkey st.cfg ev.sym ev.states then
    if ev.isRelease then
      ({ st with hotkeyPressed := false }, [])
    else if st.hotkeyPressed then
      (st, [])
    else
      let st1 := { st with hotkeyPressed := true }
      match ev.inputContext with
      | some u =>
        ({ st1 with lockedInputContextUUID := u, hasLockedContext := true }, ["toggle"])
      | none =>
        ({ st1 with hasLockedContext := false }, ["toggle"])
  else
    (st, [])

/-- Run a sequence of key events, accumulating relayed commands. -/
def runKeyEvents (st : AddonState) : List KeyEventData → AddonState × List String
  | [] => (st, [])
  | ev :: rest =>
    let r := handleKeyEvent st ev
    let r2 := runKeyEvents r.1 rest
    (r2.1, r.2 ++ r2.2)

/-! ## Host input contexts and the commit engine -/

/-- An input context as the host reports it: its uuid and whether it
currently has focus. -/
structure InputCtx where
  uuid : Nat
  hasFocus : Bool
  deriving DecidableEq, Repr

/-- The host-side facts commitText consults: the list of all known
input contexts in enumeration order, and the most-recently-used input
context reported by the instance (possibly none). -/
structure HostState where
  contexts : List InputCtx
  mostRecentInputContext : Option InputCtx
  deriving DecidableEq, Repr

/-- InputContextManager::findByUUID over the known contexts. -/
def findByUUID (host : HostState) (u : Nat) : Option InputCtx :=
  host.contexts.find? (fun c => c.uuid = u)

/-- The lock step of commitText: when the lock flag is set, try to
resolve the locked uuid to a still-live context. -/
def resolveLocked (host : HostState) (st : AddonState) : Option InputCtx :=
  if st.hasLockedContext then findByUUID host st.lockedInputContextUUID else none

/-- The fallback chain of commitText, in the order of the C++: locked
context (when the flag is set), then mostRecentInputContext, then the
first known context reporting focus, then the first known context at
all. -/
def resolveChain (host : HostState) (st : AddonState) : Option InputCtx :=
  match resolveLocked host st with
  | some c => some c
  | none =>
    match host.mostRecentInputContext with
    | some c => some c
    | none =>
      match host.contexts.find? (fun c => c.hasFocus) with
      | some c => some c
      | none => host.contexts.head?

/-- Outcome of one commitText call: the resulting addon state, the list
of commitString calls performed (target context together with the text
passed), and whether the no-target warning was logged. -/
structure CommitResult where
  state : AddonState
  commits : List (InputCtx × List Nat)
  warned : Bool
  deriving DecidableEq, Repr

/-- NextalkAddon::commitText.  Empty text returns at once.  Otherwise
the lock flag is cleared whenever it was set (whether or not the locked
uuid still resolves), the target is resolved through the fallback
chain, and the text is committed verbatim to the single resolved
target, or dropped with a warning when the chain finds nothing. -/
def commitText (host : HostState) (st : AddonState) (text : List Nat) : CommitResult :=
  if text = [] then
    ⟨st, [], false⟩
  else
    let st1 := if st.hasLockedContext then { st with hasLockedContext := false } else st
    match resolveChain host st with
    | none => ⟨st1, [], true⟩
    | some c => ⟨st1, [(c, text)], false⟩

/-! ## Socket framing (handleClient / handleConfigClient) -/

/-- Maximum text/command message size accepted by the text socket. -/
def MAX_MESSAGE_SIZE : Nat := 1024 * 1024

/-- Little-endian interpretation of the four length bytes. -/
def decodeLen (b0 b1 b2 b3 : Nat) : Nat :=
  b0 + 256 * b1 + 65536 * b2 + 16777216 * b3

/-- Little-endian encoding of a length into four bytes. -/
def encodeLen (n : Nat) : List Nat :=
  [n % 256, n / 256 % 256, n / 65536 % 256, n / 16777216 % 256]

/-- A full frame as a client sends it: 4-byte little-endian length
followed by the payload bytes. -/
def encodeFrame (payload : List Nat) : List Nat :=
  encodeLen payload.length ++ payload

/-- Observable actions of a server connection handler: scheduling a
payload onto the single-threaded executor, and writing an
acknowledgment byte back to the client. -/
inductive SrvEvent where
  | schedule (payload : List Nat)
  | ack (value : Nat)
  deriving DecidableEq, Repr

/-- NextalkAddon::handleClient on the byte stream of one accepted text
connection.  Frames are decoded repeatedly: a short header ends the
session; an oversize length ends the session with nothing read or
scheduled; an incomplete payload ends the session; a complete frame
schedules its payload, writes the ack byte 1, and loops. -/
def handleClient : List Nat → List SrvEvent
  | b0 :: b1 :: b2 :: b3 :: rest =>
    if decodeLen b0 b1 b2 b3 > MAX_MESSAGE_SIZE then []
    else if rest.length < decodeLen b0 b1 b2 b3 then []
    else SrvEvent.schedule (rest.take (decodeLen b0 b1 b2 b3))
      :: SrvEvent.ack 1 :: handleClient (rest.drop (decodeLen b0 b1 b2 b3))
  | _ => []
termination_by bs => bs.length
decreasing_by
  simp [List.length_drop]
  omega

/-- NextalkAddon::handleConfigClient on the byte stream of one accepted
config connection.  Exactly one frame is decoded: a short header or
payload ends the session silently; a length above 1024 is rejected with
nothing read or scheduled; a complete frame schedules its command
payload and writes the ack byte 1, after which the handler returns. -/
def handleConfigClient : List Nat → List SrvEvent
  | b0 :: b1 :: b2 :: b3 :: rest =>
    if decodeLen b0 b1 b2 b3 > 1024 then []
    else if rest.length < decodeLen b0 b1 b2 b3 then []
    else [SrvEvent.schedule (rest.take (decodeLen b0 b1 b2 b3)), SrvEvent.ack 1]
  | _ => []

/-! ## Helper lemmas -/

/-- The fallback chain finds nothing exactly when the host knows no
input context at all: no enumerable context and no most-recently-used
one. -/
lemma resolveChain_eq_none_iff (host : HostState) (st : AddonState) :
    resolveChain host st = none ↔
      host.contexts = [] ∧ host.mostRecentInputContext = none := by
  constructor
  · intro h
    unfold resolveChain at h
    cases h1 : resolveLocked host st with
    | some c => rw [h1] at h; exact absurd h (by simp)
    | none =>
      rw [h1] at h
      cases h2 : host.mostRecentInputContext with
      | some c => rw [h2] at h; exact absurd h (by simp)
      | none =>
        rw [h2] at h
        cases h3 : host.contexts.find? (fun c => c.hasFocus) with
        | some c => rw [h3] at h; exact absurd h (by simp)
        | none =>
          rw [h3] at h
          refine ⟨?_, rfl⟩
          cases hx : host.contexts with
          | nil => rfl
          | cons a as => rw [hx] at h; exact absurd h (by simp)
  · intro ⟨hc, hm⟩
    unfold resolveChain resolveLocked findByUUID
    rw [hc, hm]
    simp

/-! ## Claim theorems -/

/-- C10: commitText with an empty payload returns before the focus lock
is examined: nothing is committed, no warning is recorded, and the
whole addon state — the lock flag and the locked uuid included — is
returned exactly unchanged, so an armed lock stays available for the
next non-empty commit. -/
theorem empty_commit_is_noop (host : HostState) (st : AddonState) :
    commitText host st [] = ⟨st, [], false⟩ := rfl

/-- C3: the focus lock is consumed by at most one commit.  A non-empty
commit from a locked state always clears the lock flag, whether or not
the locked uuid still resolves to a live context; a hotkey release
never changes the lock flag or the locked uuid; and a commit from an
unlocked state does not depend on the stale locked uuid at all, so a
later commit can never reuse a consumed lock. -/
theorem focus_lock_consumed_at_most_once :
    (∀ (host : HostState) (st : AddonState) (text : List Nat),
      st.hasLockedContext = true → text ≠ [] →
      (commitText host st text).state.hasLockedContext = false)
    ∧ (∀ (st : AddonState) (ev : KeyEventData), ev.isRelease = true →
      (handleKeyEvent st ev).1.hasLockedContext = st.hasLockedContext ∧
      (handleKeyEvent st ev).1.lockedInputContextUUID = st.lockedInputContextUUID)
    ∧ (∀ (host : HostState) (cfg : HotkeyConfig) (pr : Bool) (u₁ u₂ : Nat) (text : List Nat),
      (commitText host ⟨cfg, pr, u₁, false⟩ text).commits =
      (commitText host ⟨cfg, pr, u₂, false⟩ text).commits) := by
  refine ⟨?_, ?_, ?_⟩
  · intro host st text hlock hne
    unfold commitText
    rw [if_neg hne]
    cases hres : resolveChain host st <;> simp [hlock]
  · intro st ev hrel
    unfold handleKeyEvent
    cases h : isConfiguredHotkey st.cfg ev.sym ev.states <;> simp [hrel]
  · intro host cfg pr u₁ u₂ text
    by_cases hne : text = []
    · rw [hne]; rfl
    · have hchain : resolveChain host ⟨cfg, pr, u₁, false⟩ =
          resolveChain host ⟨cfg, pr, u₂, false⟩ := by
        unfold resolveChain resolveLocked
        simp
      unfold commitText
      rw [if_neg hne, if_neg hne, hchain]
      cases resolveChain host ⟨cfg, pr, u₂, false⟩ <;> simp

/-- Witness for the focus-lock consumption theorem at concrete inputs:
a locked state committing one byte clears the lock; a matching release
leaves the lock untouched; commits from consumed-lock states with two
different stale uuids agree. -/
theorem focus_lock_consumed_at_most_once_witness :
    (commitText ⟨[⟨5, true⟩], none⟩ ⟨⟨keyAltR, 0⟩, false, 5, true⟩ [104]).state.hasLockedContext = false
    ∧ ((handleKeyEvent ⟨⟨keyAltR, 0⟩, true, 5, true⟩ ⟨keyAltR, 0, true, none⟩).1.hasLockedContext
        = (⟨⟨keyAltR, 0⟩, true, 5, true⟩ : AddonState).hasLockedContext
      ∧ (handleKeyEvent ⟨⟨keyAltR, 0⟩, true, 5, true⟩ ⟨keyAltR, 0, true, none⟩).1.lockedInputContextUUID
        = (⟨⟨keyAltR, 0⟩, true, 5, true⟩ : AddonState).lockedInputContextUUID)
    ∧ (commitText ⟨[⟨5, true⟩], none⟩ ⟨⟨keyAltR, 0⟩, false, 7, false⟩ [104]).commits
      = (commitText ⟨[⟨5, true⟩], none⟩ ⟨⟨keyAltR, 0⟩, false, 9, false⟩ [104]).commits :=
  ⟨focus_lock_consumed_at_most_once.1 ⟨[⟨5, true⟩], none⟩ ⟨⟨keyAltR, 0⟩, false, 5, true⟩ [104] rfl (by decide),
   focus_lock_consumed_at_most_once.2.1 ⟨⟨keyAltR, 0⟩, true, 5, true⟩ ⟨keyAltR, 0, true, none⟩ rfl,
   focus_lock_consumed_at_most_once.2.2 ⟨[⟨5, true⟩], none⟩ ⟨keyAltR, 0⟩ false 7 9 [104]⟩

/-- C2 counterexample: a hotkey press-edge taken in the idle state
whose key event reports no input context leaves the lock flag clear.
handleKeyEvent never consults the host for a most-recently-used
fallback when capturing the lock (the C++ only logs
mostRecentInputContext on this path), so the press-edge does not reach
the locked state no matter which targets the host knows. -/
theorem press_edge_no_ic_leaves_unlocked :
    (handleKeyEvent ⟨⟨keyAltR, 0⟩, false, 0, false⟩ ⟨keyAltR, 0, false, none⟩).1.hasLockedContext = false
    ∧ (handleKeyEvent ⟨⟨keyAltR, 0⟩, false, 0, false⟩ ⟨keyAltR, 0, false, none⟩).2 = ["toggle"] :=
  ⟨rfl, rfl⟩

/-- C2 amended: on a hotkey press-edge from the unpressed state, the
engine marks the hotkey pressed and relays the toggle command; it
captures into the focus lock exactly the input context reported by the
key event when one is reported, and when the event reports none it
clears the lock flag — no fallback to the most-recently-used target
happens at press time (that target is only consulted later, by the
commit path). -/
theorem press_edge_capture (st : AddonState) (ev : KeyEventData)
    (hm : isConfiguredHotkey st.cfg ev.sym ev.states = true)
    (hp : st.hotkeyPressed = false) (hr : ev.isRelease = false) :
    (handleKeyEvent st ev).1.hotkeyPressed = true
    ∧ (handleKeyEvent st ev).2 = ["toggle"]
    ∧ (∀ u, ev.inputContext = some u →
        (handleKeyEvent st ev).1.hasLockedContext = true ∧
        (handleKeyEvent st ev).1.lockedInputContextUUID = u)
    ∧ (ev.inputContext = none → (handleKeyEvent st ev).1.hasLockedContext = false) := by
  cases hic : ev.inputContext <;>
    simp [handleKeyEvent, hm, hp, hr, hic]

/-- Witness for the amended press-edge capture theorem: a matching
press event reporting context 7 marks pressed, relays toggle, and
locks uuid 7. -/
theorem press_edge_capture_witness :
    (handleKeyEvent ⟨⟨keyAltR, 0⟩, false, 0, false⟩ ⟨keyAltR, 0, false, some 7⟩).1.hotkeyPressed = true
    ∧ (handleKeyEvent ⟨⟨keyAltR, 0⟩, false, 0, false⟩ ⟨keyAltR, 0, false, some 7⟩).2 = ["toggle"]
    ∧ (handleKeyEvent ⟨⟨keyAltR, 0⟩, false, 0, false⟩ ⟨keyAltR, 0, false, some 7⟩).1.hasLockedContext = true
    ∧ (handleKeyEvent ⟨⟨keyAltR, 0⟩, false, 0, false⟩ ⟨keyAltR, 0, false, some 7⟩).1.lockedInputContextUUID = 7 := by
  have h := press_edge_capture ⟨⟨keyAltR, 0⟩, false, 0, false⟩ ⟨keyAltR, 0, false, some 7⟩
    (by decide) rfl rfl
  exact ⟨h.1, h.2.1, (h.2.2.1 7 rfl).1, (h.2.2.1 7 rfl).2⟩

/-- Modelled after the words of the claim for comparison with the
code: the symbol matches directly or via the Alt_R accommodation, and
in either case a non-empty configured modifier set must be contained
in the event's modifier state. -/
def claimedHotkeyMatch (cfg : HotkeyConfig) (sym states : Nat) : Prop :=
  (sym = cfg.configuredKey ∨ (cfg.configuredKey = keyAltR ∧ sym = keyISOLevel3Shift))
  ∧ (cfg.configuredModifiers ≠ 0 →
      (states &&& cfg.configuredModifiers) = cfg.configuredModifiers)

/-- C5 counterexample: with main key Alt_R and configured modifier
Ctrl, an ISO_Level3_Shift event carrying no modifiers matches in the
code — the accommodation branch returns true before the modifier check
runs — while the claimed predicate, which applies the modifier
superset test to the accommodation path as well, rejects it. -/
theorem alias_match_ignores_modifiers :
    isConfiguredHotkey ⟨keyAltR, keyStateCtrl⟩ keyISOLevel3Shift 0 = true
    ∧ ¬ claimedHotkeyMatch ⟨keyAltR, keyStateCtrl⟩ keyISOLevel3Shift 0 := by
  constructor
  · rfl
  · intro h
    exact absurd (h.2 (by decide)) (by decide)

/-- C5 amended: the matcher accepts exactly when either the event
symbol equals the configured main key and, whenever modifiers are
configured, the event state contains them all, or the symbol differs
from the main key but the Alt_R / ISO_Level3_Shift accommodation
applies — and on that accommodation path the modifier state is not
examined at all. -/
theorem hotkey_match_characterization (cfg : HotkeyConfig) (sym states : Nat) :
    isConfiguredHotkey cfg sym states = true ↔
      ((sym = cfg.configuredKey
        ∧ (cfg.configuredModifiers ≠ 0 →
            (states &&& cfg.configuredModifiers) = cfg.configuredModifiers))
       ∨ (sym ≠ cfg.configuredKey ∧ cfg.configuredKey = keyAltR ∧ sym = keyISOLevel3Shift)) := by
  unfold isConfiguredHotkey
  by_cases h1 : sym = cfg.configuredKey
  · by_cases h2 : cfg.configuredModifiers = 0
    · simp [h1, h2]
    · by_cases h3 : (states &&& cfg.configuredModifiers) = cfg.configuredModifiers <;>
        simp [h1, h2, h3]
  · by_cases h4 : cfg.configuredKey = keyAltR ∧ sym = keyISOLevel3Shift
    · obtain ⟨ha, hb⟩ := h4
      subst hb
      simp [h1, ha, keyAltR, keyISOLevel3Shift]
    · simp [h1, h4]

/-- Witness for the matcher characterization at concrete inputs: a
Control+Shift+space configuration accepts space with both modifier
bits held. -/
theorem hotkey_match_characterization_witness :
    isConfiguredHotkey ⟨keySpace, 5⟩ keySpace 7 = true ↔
      ((keySpace = keySpace ∧ ((5 : Nat) ≠ 0 → ((7 : Nat) &&& 5) = 5))
       ∨ (keySpace ≠ keySpace ∧ keySpace = keyAltR ∧ keySpace = keyISOLevel3Shift)) :=
  hotkey_match_characterization ⟨keySpace, 5⟩ keySpace 7

/-- Unfolding equation for runKeyEvents on a cons cell. -/
lemma runKeyEvents_cons (st : AddonState) (ev : KeyEventData) (rest : List KeyEventData) :
    runKeyEvents st (ev :: rest)
      = ((runKeyEvents (handleKeyEvent st ev).1 rest).1,
         (handleKeyEvent st ev).2 ++ (runKeyEvents (handleKeyEvent st ev).1 rest).2) := rfl

/-- Over any event sequence, the number of relayed commands is bounded
by the number of matching release events, plus one when the hotkey
starts out unpressed: between two relays there is always a matching
release. -/
lemma runKeyEvents_send_bound (cfg : HotkeyConfig) :
    ∀ (evs : List KeyEventData) (st : AddonState), st.cfg = cfg →
      (runKeyEvents st evs).2.length ≤
        (evs.filter (fun e => isConfiguredHotkey cfg e.sym e.states && e.isRelease)).length
          + (if st.hotkeyPressed then 0 else 1) := by
  intro evs
  induction evs with
  | nil =>
    intro st hcfg
    simp [runKeyEvents]
  | cons ev rest ih =>
    intro st hcfg
    by_cases h1 : isConfiguredHotkey cfg ev.sym ev.states = true
    · by_cases h2 : ev.isRelease = true
      · have hstep : handleKeyEvent st ev = ({ st with hotkeyPressed := false }, []) := by
          unfold handleKeyEvent
          rw [hcfg]
          simp [h1, h2]
        have ihr := ih { st with hotkeyPressed := false } (by simp [hcfg])
        rw [runKeyEvents_cons, hstep]
        simp only [List.filter_cons, h1, h2, Bool.and_self, if_pos]
        simp only [List.length_cons, List.nil_append]
        simp at ihr
        omega
      · have h2f : ev.isRelease = false := by
          revert h2; cases ev.isRelease <;> simp
        by_cases h3 : st.hotkeyPressed = true
        · have hstep : handleKeyEvent st ev = (st, []) := by
            unfold handleKeyEvent
            rw [hcfg]
            simp [h1, h2f, h3]
          have ihr := ih st hcfg
          rw [runKeyEvents_cons, hstep]
          have hpred : (isConfiguredHotkey cfg ev.sym ev.states && ev.isRelease) = false := by
            simp [h2f]
          simp only [List.filter_cons, hpred]
          simp only [Bool.false_eq_true, if_false, List.nil_append]
          omega
        · have h3f : st.hotkeyPressed = false := by
            revert h3; cases st.hotkeyPressed <;> simp
          have hpred : (isConfiguredHotkey cfg ev.sym ev.states && ev.isRelease) = false := by
            simp [h2f]
          cases hic : ev.inputContext with
          | some u =>
            have hstep : handleKeyEvent st ev =
                ({ st with hotkeyPressed := true,
                           lockedInputContextUUID := u,
                           hasLockedContext := true }, ["toggle"]) := by
              unfold handleKeyEvent
              rw [hcfg]
              simp [h1, h2f, h3f, hic]
            have ihr := ih { st with hotkeyPressed := true,
                                     lockedInputContextUUID := u,
                                     hasLockedContext := true } (by simp [hcfg])
            rw [runKeyEvents_cons, hstep]
            simp only [List.filter_cons, hpred]
            simp only [Bool.false_eq_true, if_false, List.singleton_append, List.length_cons]
            simp at ihr
            simp [h3f]
            omega
          | none =>
            have hstep : handleKeyEvent st ev =
                ({ st with hotkeyPressed := true, hasLockedContext := false }, ["toggle"]) := by
              unfold handleKeyEvent
              rw [hcfg]
              simp [h1, h2f, h3f, hic]
            have ihr := ih { st with hotkeyPressed := true,
                                     hasLockedContext := false } (by simp [hcfg])
            rw [runKeyEvents_cons, hstep]
            simp only [List.filter_cons, hpred]
            simp only [Bool.false_eq_true, if_false, List.singleton_append, List.length_cons]
            simp at ihr
            simp [h3f]
            omega
    · have h1f : isConfiguredHotkey cfg ev.sym ev.states = false := by
        revert h1; cases isConfiguredHotkey cfg ev.sym ev.states <;> simp
      have hstep : handleKeyEvent st ev = (st, []) := by
        unfold handleKeyEvent
        rw [hcfg]
        simp [h1f]
      have ihr := ih st hcfg
      rw [runKeyEvents_cons, hstep]
      have hpred : (isConfiguredHotkey cfg ev.sym ev.states && ev.isRelease) = false := by
        simp [h1f]
      simp only [List.filter_cons, hpred]
      simp only [Bool.false_eq_true, if_false, List.nil_append]
      omega

/-- C6: the toggle relay and the focus capture fire only on a
release-to-press transition.  A matching press while the pressed flag
is already set (key repeat) changes nothing and relays nothing; a
matching release only clears the pressed flag and relays nothing; and
over any event sequence the number of relayed commands is bounded by
the number of matching releases plus one, so two relays never happen
without an intervening release of the hotkey. -/
theorem toggle_relay_press_edge_only :
    (∀ (st : AddonState) (ev : KeyEventData),
      isConfiguredHotkey st.cfg ev.sym ev.states = true → ev.isRelease = false →
      st.hotkeyPressed = true → handleKeyEvent st ev = (st, []))
    ∧ (∀ (st : AddonState) (ev : KeyEventData),
      isConfiguredHotkey st.cfg ev.sym ev.states = true → ev.isRelease = true →
      handleKeyEvent st ev = ({ st with hotkeyPressed := false }, []))
    ∧ (∀ (st : AddonState) (evs : List KeyEventData),
      (runKeyEvents st evs).2.length ≤
        (evs.filter (fun e => isConfiguredHotkey st.cfg e.sym e.states && e.isRelease)).length
          + (if st.hotkeyPressed then 0 else 1)) := by
  refine ⟨?_, ?_, ?_⟩
  · intro st ev hm hr hp
    unfold handleKeyEvent
    simp [hm, hr, hp]
  · intro st ev hm hr
    unfold handleKeyEvent
    simp [hm, hr]
  · intro st evs
    exact runKeyEvents_send_bound st.cfg evs st rfl

/-- Witness for the press-edge relay theorem at concrete inputs: a
repeated press while pressed does nothing, a release only clears the
flag, and a two-press sequence from idle relays at most once. -/
theorem toggle_relay_press_edge_only_witness :
    handleKeyEvent ⟨⟨keyAltR, 0⟩, true, 0, false⟩ ⟨keyAltR, 0, false, some 1⟩
      = (⟨⟨keyAltR, 0⟩, true, 0, false⟩, [])
    ∧ handleKeyEvent ⟨⟨keyAltR, 0⟩, true, 0, false⟩ ⟨keyAltR, 0, true, some 1⟩
      = ({ (⟨⟨keyAltR, 0⟩, true, 0, false⟩ : AddonState) with hotkeyPressed := false }, [])
    ∧ (runKeyEvents ⟨⟨keyAltR, 0⟩, false, 0, false⟩
        [⟨keyAltR, 0, false, some 1⟩, ⟨keyAltR, 0, false, some 1⟩]).2.length ≤
        (([⟨keyAltR, 0, false, some 1⟩, ⟨keyAltR, 0, false, some 1⟩] : List KeyEventData).filter
          (fun e => isConfiguredHotkey ⟨keyAltR, 0⟩ e.sym e.states && e.isRelease)).length
          + (if (⟨⟨keyAltR, 0⟩, false, 0, false⟩ : AddonState).hotkeyPressed then 0 else 1) :=
  ⟨toggle_relay_press_edge_only.1 ⟨⟨keyAltR, 0⟩, true, 0, false⟩ ⟨keyAltR, 0, false, some 1⟩
      (by decide) rfl rfl,
   toggle_relay_press_edge_only.2.1 ⟨⟨keyAltR, 0⟩, true, 0, false⟩ ⟨keyAltR, 0, true, some 1⟩
      (by decide) rfl,
   toggle_relay_press_edge_only.2.2 ⟨⟨keyAltR, 0⟩, false, 0, false⟩
      [⟨keyAltR, 0, false, some 1⟩, ⟨keyAltR, 0, false, some 1⟩]⟩

/-- C7: a non-empty commit performed with no active focus lock
resolves its target by trying, in order, the most-recently-used
context, then the first known context reporting live focus, then the
first known context at all; the text is dropped and the warning
recorded exactly when all three resolvers find nothing, and a dropped
commit is the only way the non-empty text is lost. -/
theorem idle_commit_resolution_order (host : HostState) (st : AddonState) (text : List Nat)
    (hlock : st.hasLockedContext = false) (hne : text ≠ []) :
    (commitText host st text).commits =
      (match host.mostRecentInputContext with
       | some c => [(c, text)]
       | none =>
         match host.contexts.find? (fun c => c.hasFocus) with
         | some c => [(c, text)]
         | none =>
           match host.contexts.head? with
           | some c => [(c, text)]
           | none => [])
    ∧ ((commitText host st text).warned = true ↔
        host.mostRecentInputContext = none
        ∧ host.contexts.find? (fun c => c.hasFocus) = none
        ∧ host.contexts.head? = none)
    ∧ ((commitText host st text).commits = [] ↔ (commitText host st text).warned = true) := by
  have hres : resolveChain host st =
      (match host.mostRecentInputContext with
       | some c => some c
       | none =>
         match host.contexts.find? (fun c => c.hasFocus) with
         | some c => some c
         | none => host.contexts.head?) := by
    unfold resolveChain resolveLocked
    rw [hlock]
    simp
  unfold commitText
  rw [if_neg hne, hres, hlock]
  cases hm : host.mostRecentInputContext with
  | some c => simp
  | none =>
    cases hf : host.contexts.find? (fun c => c.hasFocus) with
    | some c => simp
    | none =>
      cases hh : host.contexts.head? with
      | some c => simp
      | none => simp

/-- Witness for the idle resolution-order theorem: with no known
contexts at all, a one-byte commit is dropped and the warning is
recorded. -/
theorem idle_commit_resolution_order_witness :
    (commitText ⟨[], none⟩ ⟨⟨keyAltR, 0⟩, false, 0, false⟩ [104]).warned = true :=
  ((idle_commit_resolution_order ⟨[], none⟩ ⟨⟨keyAltR, 0⟩, false, 0, false⟩ [104]
      rfl (by decide)).2.1).mpr ⟨rfl, rfl, rfl⟩

/-- parseModifiers fails exactly when some token is not a recognized
modifier name. -/
lemma parseModifiers_eq_none_iff (l : List String) :
    parseModifiers l = none ↔ ∃ m ∈ l, modifierBits m = none := by
  induction l with
  | nil => simp [parseModifiers]
  | cons m rest ih =>
    cases hb : modifierBits m with
    | none => simp [parseModifiers, hb]
    | some b =>
      cases hr : parseModifiers rest with
      | none => simp [parseModifiers, hb, hr, ← ih]
      | some acc => simp [parseModifiers, hb, hr, ← ih]

/-- C4: parseHotkeyConfig mutates the configuration only on a fully
successful parse.  It fails exactly when the spec has no tokens, the
main (last) token is not in the key-name table, or some modifier token
is unrecognized; on any failure the prior configuration is returned
exactly unchanged, and on success the result carries exactly the
parsed main key and modifier set. -/
theorem parse_failure_preserves_configuration (cfg : HotkeyConfig) (s : String) :
    ((parseHotkeyConfig cfg s).1 = false → (parseHotkeyConfig cfg s).2 = cfg)
    ∧ ((parseHotkeyConfig cfg s).1 = false ↔
        splitConfig s = []
        ∨ (∃ mk, (splitConfig s).getLast? = some mk ∧ keyNameMap.lookup mk = none)
        ∨ (∃ m ∈ (splitConfig s).dropLast, modifierBits m = none))
    ∧ (∀ mk key mods, (splitConfig s).getLast? = some mk →
        keyNameMap.lookup mk = some key →
        parseModifiers (splitConfig s).dropLast = some mods →
        parseHotkeyConfig cfg s = (true, ⟨key, mods⟩)) := by
  simp only [parseHotkeyConfig]
  split
  · rename_i hl
    have hempty : splitConfig s = [] := List.getLast?_eq_none_iff.mp hl
    refine ⟨fun _ => rfl, ?_, ?_⟩
    · simp [hempty]
    · intro mk key mods hl2 hk2 hm2
      rw [hl] at hl2
      exact Option.noConfusion hl2
  · rename_i mk hl
    split
    · rename_i hk
      refine ⟨fun _ => rfl, ?_, ?_⟩
      · constructor
        · intro _
          exact Or.inr (Or.inl ⟨mk, hl, hk⟩)
        · intro _
          rfl
      · intro mk2 key2 mods2 hl2 hk2 hm2
        rw [hl] at hl2
        have e : mk = mk2 := Option.some_inj.mp hl2
        rw [← e, hk] at hk2
        exact Option.noConfusion hk2
    · rename_i key hk
      split
      · rename_i hm
        refine ⟨fun _ => rfl, ?_, ?_⟩
        · constructor
          · intro _
            exact Or.inr (Or.inr ((parseModifiers_eq_none_iff _).mp hm))
          · intro _
            rfl
        · intro mk2 key2 mods2 hl2 hk2 hm2
          rw [hm] at hm2
          exact Option.noConfusion hm2
      · rename_i mods hm
        refine ⟨?_, ?_, ?_⟩
        · intro h
          exact absurd h (by simp)
        · constructor
          · intro h
            exact absurd h (by simp)
          · intro h
            rcases h with h | ⟨mk2, hmk2, hk2⟩ | h
            · rw [h] at hl
              simp at hl
            · rw [hl] at hmk2
              have e : mk = mk2 := Option.some_inj.mp hmk2
              rw [← e, hk] at hk2
              exact Option.noConfusion hk2
            · have h2 := (parseModifiers_eq_none_iff _).mpr h
              rw [hm] at h2
              exact Option.noConfusion h2
        · intro mk2 key2 mods2 hl2 hk2 hm2
          rw [hl] at hl2
          have e : mk = mk2 := Option.some_inj.mp hl2
          rw [← e, hk] at hk2
          rw [hm] at hm2
          rw [← Option.some_inj.mp hk2, ← Option.some_inj.mp hm2]

/-- Witness for the parse theorem at concrete inputs: parsing the
invalid spec leaves the default configuration unchanged, and parsing a
valid Control+Shift+space spec installs space with the Ctrl and Shift
bits. -/
theorem parse_failure_preserves_configuration_witness :
    (parseHotkeyConfig defaultConfig "Foo+Bar").2 = defaultConfig
    ∧ parseHotkeyConfig defaultConfig "Control+Shift+space"
        = (true, ⟨keySpace, keyStateCtrl ||| keyStateShift ||| 0⟩) :=
  ⟨(parse_failure_preserves_configuration defaultConfig "Foo+Bar").1 (by decide),
   (parse_failure_preserves_configuration defaultConfig "Control+Shift+space").2.2
      "space" keySpace (keyStateCtrl ||| keyStateShift ||| 0)
      (by decide) (by decide) (by decide)⟩

/-- Decoding the four little-endian bytes of an encoded length
recovers the length, for any value fitting in 32 bits. -/
lemma decodeLen_encodeLen (n : Nat) (h : n < 4294967296) :
    decodeLen (n % 256) (n / 256 % 256) (n / 65536 % 256) (n / 16777216 % 256) = n := by
  unfold decodeLen
  omega

/-- One complete in-bounds frame at the head of the text-connection
byte stream is decoded, scheduled, and acknowledged, and the handler
loops on the remaining bytes. -/
lemma handleClient_frame (p rest : List Nat) (hlen : p.length ≤ MAX_MESSAGE_SIZE) :
    handleClient (encodeFrame p ++ rest)
      = SrvEvent.schedule p :: SrvEvent.ack 1 :: handleClient rest := by
  have hmax : MAX_MESSAGE_SIZE = 1048576 := rfl
  have hdec : decodeLen (p.length % 256) (p.length / 256 % 256)
      (p.length / 65536 % 256) (p.length / 16777216 % 256) = p.length :=
    decodeLen_encodeLen p.length (by omega)
  have hE : encodeFrame p ++ rest
      = p.length % 256 :: p.length / 256 % 256 :: p.length / 65536 % 256 ::
        p.length / 16777216 % 256 :: (p ++ rest) := by
    simp [encodeFrame, encodeLen]
  rw [hE]
  simp only [handleClient]
  rw [hdec, if_neg (by omega), if_neg (by simp [List.length_append]),
    List.take_left, List.drop_left]

/-- The empty byte stream produces no events. -/
lemma handleClient_nil : handleClient [] = [] := by
  unfold handleClient
  rfl

/-- One complete in-bounds frame at the head of the config-connection
byte stream is decoded, scheduled, and acknowledged, and the handler
then stops. -/
lemma handleConfigClient_frame (q rest2 : List Nat) (hq : q.length ≤ 1024) :
    handleConfigClient (encodeFrame q ++ rest2)
      = [SrvEvent.schedule q, SrvEvent.ack 1] := by
  have hdec : decodeLen (q.length % 256) (q.length / 256 % 256)
      (q.length / 65536 % 256) (q.length / 16777216 % 256) = q.length :=
    decodeLen_encodeLen q.length (by omega)
  have hE : encodeFrame q ++ rest2
      = q.length % 256 :: q.length / 256 % 256 :: q.length / 65536 % 256 ::
        q.length / 16777216 % 256 :: (q ++ rest2) := by
    simp [encodeFrame, encodeLen]
  rw [hE]
  simp only [handleConfigClient]
  rw [hdec, if_neg (by omega), if_neg (by simp [List.length_append]), List.take_left]

/-- C1: a fully decoded non-empty text frame schedules exactly its
payload, byte for byte, followed by the single acknowledgment byte,
and the scheduled commit delivers exactly that payload once to exactly
one target; the text is dropped with a warning precisely when the host
knows no input context at all, and otherwise exactly one commit of the
unaltered payload happens. -/
theorem text_frame_committed_exactly_once (host : HostState) (st : AddonState)
    (p rest : List Nat) (hne : p ≠ []) (hlen : p.length ≤ MAX_MESSAGE_SIZE) :
    handleClient (encodeFrame p ++ rest)
      = SrvEvent.schedule p :: SrvEvent.ack 1 :: handleClient rest
    ∧ ((host.contexts = [] ∧ host.mostRecentInputContext = none) →
        (commitText host st p).commits = [] ∧ (commitText host st p).warned = true)
    ∧ (¬ (host.contexts = [] ∧ host.mostRecentInputContext = none) →
        ∃ c, (commitText host st p).commits = [(c, p)]
          ∧ (commitText host st p).warned = false) := by
  refine ⟨handleClient_frame p rest hlen, ?_, ?_⟩
  · intro hno
    have hchain : resolveChain host st = none := (resolveChain_eq_none_iff host st).mpr hno
    unfold commitText
    rw [if_neg hne, hchain]
    exact ⟨rfl, rfl⟩
  · intro hyes
    cases hchain : resolveChain host st with
    | none => exact absurd ((resolveChain_eq_none_iff host st).mp hchain) hyes
    | some c =>
      refine ⟨c, ?_, ?_⟩ <;>
      · unfold commitText
        rw [if_neg hne, hchain]

/-- Witness for the exact-commit theorem at concrete inputs: the frame
carrying byte 104 is scheduled and acknowledged, and with a focused
context known to the host the commit delivers exactly that byte once. -/
theorem text_frame_committed_exactly_once_witness :
    handleClient (encodeFrame [104] ++ [])
      = SrvEvent.schedule [104] :: SrvEvent.ack 1 :: handleClient []
    ∧ ∃ c, (commitText ⟨[⟨3, true⟩], some ⟨3, true⟩⟩
          ⟨⟨keyAltR, 0⟩, false, 0, false⟩ [104]).commits = [(c, [104])]
      ∧ (commitText ⟨[⟨3, true⟩], some ⟨3, true⟩⟩
          ⟨⟨keyAltR, 0⟩, false, 0, false⟩ [104]).warned = false :=
  ⟨(text_frame_committed_exactly_once ⟨[⟨3, true⟩], some ⟨3, true⟩⟩
      ⟨⟨keyAltR, 0⟩, false, 0, false⟩ [104] [] (by decide) (by decide)).1,
   (text_frame_committed_exactly_once ⟨[⟨3, true⟩], some ⟨3, true⟩⟩
      ⟨⟨keyAltR, 0⟩, false, 0, false⟩ [104] [] (by decide) (by decide)).2.2 (by simp)⟩

/-- C8 counterexample: one config connection carrying two well-formed
frames.  handleConfigClient decodes and acknowledges only the first
frame and never looks at the second, while the text-socket handler on
the very same bytes processes both — so the config server does not
repeatedly decode frames on one connection. -/
theorem config_connection_single_frame :
    handleConfigClient [1, 0, 0, 0, 97, 1, 0, 0, 0, 98]
      = [SrvEvent.schedule [97], SrvEvent.ack 1]
    ∧ handleClient [1, 0, 0, 0, 97, 1, 0, 0, 0, 98]
      = [SrvEvent.schedule [97], SrvEvent.ack 1,
         SrvEvent.schedule [98], SrvEvent.ack 1] := by
  constructor
  · rfl
  · have h1 : ([1, 0, 0, 0, 97, 1, 0, 0, 0, 98] : List Nat)
        = encodeFrame [97] ++ (encodeFrame [98] ++ []) := rfl
    rw [h1, handleClient_frame _ _ (by decide), handleClient_frame _ _ (by decide),
      handleClient_nil]

/-- C8 amended: the text server repeatedly decodes frames on one
accepted connection, writing the single acknowledgment byte 1 after
each fully decoded frame before decoding the next; the config server
decodes exactly one frame per accepted connection, acknowledges it
with the same byte, and then ends the session. -/
theorem session_frame_loop (p rest q rest2 : List Nat)
    (hp : p.length ≤ MAX_MESSAGE_SIZE) (hq : q.length ≤ 1024) :
    handleClient (encodeFrame p ++ rest)
      = SrvEvent.schedule p :: SrvEvent.ack 1 :: handleClient rest
    ∧ handleConfigClient (encodeFrame q ++ rest2)
      = [SrvEvent.schedule q, SrvEvent.ack 1] :=
  ⟨handleClient_frame p rest hp, handleConfigClient_frame q rest2 hq⟩

/-- Witness for the session-loop theorem at concrete inputs: the text
handler consumes a frame and loops on the remaining bytes; the config
handler consumes one frame and stops. -/
theorem session_frame_loop_witness :
    handleClient (encodeFrame [104] ++ encodeFrame [105])
      = SrvEvent.schedule [104] :: SrvEvent.ack 1 :: handleClient (encodeFrame [105])
    ∧ handleConfigClient (encodeFrame [99] ++ [])
      = [SrvEvent.schedule [99], SrvEvent.ack 1] :=
  ⟨(session_frame_loop [104] (encodeFrame [105]) [99] [] (by decide) (by decide)).1,
   (session_frame_loop [104] (encodeFrame [105]) [99] [] (by decide) (by decide)).2⟩

/-- C9: a frame whose decoded length field exceeds the limit (1 MiB on
the text socket, 1024 bytes on the config socket) terminates the
connection at once: whatever bytes follow the four length bytes, the
payload is never read, nothing is scheduled onto the executor — so no
commit or command task can arise from it and neither the hotkey
configuration nor the focus lock can be touched — and no ack is
written. -/
theorem oversize_frame_rejected (b0 b1 b2 b3 : Nat) (rest rest2 : List Nat) :
    (decodeLen b0 b1 b2 b3 > MAX_MESSAGE_SIZE →
      handleClient (b0 :: b1 :: b2 :: b3 :: rest) = [])
    ∧ (decodeLen b0 b1 b2 b3 > 1024 →
      handleConfigClient (b0 :: b1 :: b2 :: b3 :: rest2) = []) := by
  constructor
  · intro h
    simp only [handleClient]
    rw [if_pos h]
  · intro h
    simp only [handleConfigClient]
    rw [if_pos h]

/-- Witness for the oversize-rejection theorem at a concrete oversize
header (length field decoding to 2097152): both handlers produce no
events at all. -/
theorem oversize_frame_rejected_witness :
    handleClient [0, 0, 32, 0, 7, 7, 7] = []
    ∧ handleConfigClient [0, 0, 32, 0, 7] = [] :=
  ⟨(oversize_frame_rejected 0 0 32 0 [7, 7, 7] [7]).1 (by decide),
   (oversize_frame_rejected 0 0 32 0 [7, 7, 7] [7]).2 (by decide)⟩

end Nextalk
